import Mathlib

set_option autoImplicit false

/-!
gin-api: request context, redis logging hook, jaeger span injection

A shallow embedding of

* `library/logger/context.go`  (context keys and the `With*` / `Value*` accessors),
* `library/logger/redis/redis.go`  (the go-redis logging hook `RedisLogger`),
* `libraries/jaeger/jaeger.go`  (`getInjectParent`, `InjectHTTP`, `InjectRedis`, `SetTag`),

followed by theorems about them.

Conventions of the embedding:

* a Go `interface{}` value is a term of the sum type `Any`;
* a `context.Context` is the chain of `context.WithValue` nodes above `context.Background()`;
* a run-time panic is the `Except.error` branch of `Except Panic _`;
* the clock (`time.Now`, `time.Since`) is an explicit argument: the monotonic reading in
  nanoseconds, a signed 64-bit integer;
* calls to the log sink are collected in the list of emitted `LogRecord`s.
-/

namespace GinApi

/-! ## Go values -/

/-- The log-record field set.
Modelled from the spec: the struct `logger.Fields` is declared outside the files at hand; the
specification fixes its field names (Header, Method, Request, Response, Code, ClientIP,
ClientPort, ServerIP, ServerPort, API, Cost).  `Request` holds one argument list per command and
`Response` one rendered reply per command; a nil map or slice is identified with the empty one. -/
structure Fields where
  Header : List (String × List String)
  Method : String
  Request : List (List String)
  Response : List String
  Code : Int
  ClientIP : String
  ClientPort : Int
  ServerIP : String
  ServerPort : Int
  API : String
  Cost : Int
deriving DecidableEq, Repr

/-- The Go zero value `Fields{}`. -/
def Fields.zero : Fields :=
  { Header := [], Method := "", Request := [], Response := [], Code := 0,
    ClientIP := "", ClientPort := 0, ServerIP := "", ServerPort := 0, API := "", Cost := 0 }

/-- A reading of the monotonic clock, in nanoseconds (what `time.Now()` records and
`time.Since` compares). -/
abbrev Time := Int

/-- A value of Go type `interface{}` as it is stored in a context. -/
inductive Any where
  | nil
  | str (s : String)
  | int (n : Int)
  | fields (f : Fields)
  | time (t : Time)
deriving DecidableEq, Repr

/-- A context key.  Go compares keys as interface values, so a key is its dynamic type together
with its value: `logger.contextKey` (a `uint64`), `redis.contextKey` (an `int`), or a plain
`string`. -/
inductive Key where
  | logger (n : Nat)
  | redis (n : Int)
  | str (s : String)
deriving DecidableEq, Repr

/-- A `context.Context`: `context.Background()` extended by `context.WithValue`. -/
inductive Context where
  | background
  | withValue (parent : Context) (key : Key) (val : Any)
deriving DecidableEq, Repr

/-- The method `ctx.Value(key)`: the value of the innermost node carrying `key`, nil if none. -/
def Context.Value : Context → Key → Any
  | .background, _ => Any.nil
  | .withValue parent k v, key => if k = key then v else parent.Value key

/-- The key `key` is bound nowhere in the chain of `ctx`. -/
def Context.Unbound (key : Key) : Context → Prop
  | .background => True
  | .withValue parent k _ => k ≠ key ∧ parent.Unbound key

/-! ## library/logger/context.go -/

namespace logger

/-- The constant `contextLogID contextKey = iota`. -/
def contextLogID : Key := Key.logger 0
/-- The constant `contextHTTPLogFields`. -/
def contextHTTPLogFields : Key := Key.logger 1
/-- The constant `contextTraceID`. -/
def contextTraceID : Key := Key.logger 2

/-- WithLogID inject log id to context. -/
def WithLogID (ctx : Context) (val : Any) : Context :=
  Context.withValue ctx contextLogID val

/-- ValueLogID extract log id from context. -/
def ValueLogID (ctx : Context) : String :=
  match ctx.Value contextLogID with
  | Any.str logID => logID
  | _ => ""

/-- WithTraceID inject trace id to context. -/
def WithTraceID (ctx : Context) (val : Any) : Context :=
  Context.withValue ctx contextTraceID val

/-- ValueTraceID extract trace id from context. -/
def ValueTraceID (ctx : Context) : String :=
  match ctx.Value contextTraceID with
  | Any.str logID => logID
  | _ => ""

/-- WithHTTPFields inject common http log fields to context. -/
def WithHTTPFields (ctx : Context) (fields : Fields) : Context :=
  Context.withValue ctx contextHTTPLogFields (Any.fields fields)

/-- ValueHTTPFields extract common http log fields from context. -/
def ValueHTTPFields (ctx : Context) : Fields :=
  match ctx.Value contextHTTPLogFields with
  | Any.fields fields => fields
  | _ => Fields.zero

/-- Severity of an emitted record. -/
inductive Level where
  | info
  | error
deriving DecidableEq, Repr

/-- One record handed to the log sink: its severity, its message, and the context it was
emitted with (the record's HTTP fields are the ones stored in that context). -/
structure LogRecord where
  level : Level
  ctx : Context
  msg : String
deriving DecidableEq, Repr

/-- The fields of a record: the HTTP fields stored in the context it was emitted with. -/
def LogRecord.fields (r : LogRecord) : Fields := ValueHTTPFields r.ctx

/-- A logger handle.
Modelled from the spec: the type `logger.Logger` is declared outside the files at hand; the
specification describes it as a sink that accepts a record at a given severity (info or error). -/
structure Logger where
  ServiceName : String
deriving DecidableEq, Repr

/-- One call `l.Info(ctx, msg, fields...)`.
Modelled from the spec: the sink accepts one record at info severity. -/
def Logger.Info (_l : Logger) (ctx : Context) (msg : String) : LogRecord :=
  { level := Level.info, ctx := ctx, msg := msg }

/-- One call `l.Error(ctx, msg, fields...)`.
Modelled from the spec: the sink accepts one record at error severity. -/
def Logger.Error (_l : Logger) (ctx : Context) (msg : String) : LogRecord :=
  { level := Level.error, ctx := ctx, msg := msg }

end logger

/-! ## Panics -/

/-- The run-time panics the embedded code can raise. -/
inductive Panic where
  | typeAssertion
  | indexOutOfRange
  | nilDereference
deriving DecidableEq, Repr

/-! ## library/logger/redis/redis.go -/

namespace redis

/-- An `error` value of a command: the sentinel `redis.Nil`, or any other error with its text. -/
inductive Err where
  | Nil
  | other (msg : String)
deriving DecidableEq, Repr

/-- The method `err.Error()`; the text of the sentinel is the library's `"redis: nil"`. -/
def Err.Error : Err → String
  | Err.Nil => "redis: nil"
  | Err.other msg => msg

/-- A `redis.Cmder` as the hook observes it: what `Name()`, `Args()`, `Err()` and `String()`
return (`Err = none` is the nil error). -/
structure Cmder where
  Name : String
  Args : List String
  Err : Option Err
  String : String
deriving DecidableEq, Repr

/-- The constant `cmdStart contextKey = iota` of package redis. -/
def cmdStart : Key := Key.redis 0

/-- The struct `RedisConfig`. -/
structure RedisConfig where
  InfoFile : String
  ErrorFile : String
  Level : String
  ServiceName : String
  Host : String
  Port : Int
deriving DecidableEq, Repr

/-- RedisLogger is go-redis logger Hook (`Logger = none` is the nil pointer). -/
structure RedisLogger where
  Logger : Option logger.Logger
  Config : RedisConfig
deriving DecidableEq, Repr

/-- A `zap.Field`; `fields` always returns the empty slice of them. -/
structure ZapField where
  Key : String
deriving DecidableEq, Repr

/-- The largest `time.Duration`. -/
def maxDuration : Int := 2 ^ 63 - 1
/-- The smallest `time.Duration`. -/
def minDuration : Int := -(2 ^ 63)

/-- Two's-complement wrap-around of a signed 64-bit result. -/
def wrap64 (x : Int) : Int := (x + 2 ^ 63) % 2 ^ 64 - 2 ^ 63

/-- The standard library's `subMono`: the difference of two monotonic readings, saturating. -/
def subMono (t u : Time) : Int :=
  let d := wrap64 (t - u)
  if d < 0 ∧ t > u then maxDuration
  else if d > 0 ∧ t < u then minDuration
  else d

/-- The call `time.Since(t)` at clock reading `now`. -/
def Since (now : Time) (t : Time) : Int := subMono now t

/-- The method `Duration.Milliseconds`: `int64(d) / 1e6`, truncated toward zero. -/
def Milliseconds (d : Int) : Int := Int.tdiv d 1000000

/-- The call `strconv.Itoa` on a slice index. -/
def Itoa (idx : Nat) : String := toString idx

/-- The call `strings.Join(elems, sep)`. -/
def Join (elems : List String) (sep : String) : String := sep.intercalate elems

/-- The method `setCmdStart`: `context.WithValue(ctx, cmdStart, time.Now())`. -/
def RedisLogger.setCmdStart (_rl : RedisLogger) (ctx : Context) (now : Time) : Context :=
  Context.withValue ctx cmdStart (Any.time now)

/-- The method `getCmdCost`: `time.Since(ctx.Value(cmdStart).(time.Time)).Milliseconds()`.
The single-value type assertion panics unless the stored value is a `time.Time`. -/
def RedisLogger.getCmdCost (_rl : RedisLogger) (ctx : Context) (now : Time) : Except Panic Int :=
  match ctx.Value cmdStart with
  | Any.time t => pure (Milliseconds (Since now t))
  | _ => throw Panic.typeAssertion

/-- The method `fields`. -/
def RedisLogger.fields (rl : RedisLogger) (ctx : Context) (isPipeline : Bool)
    (cmds : List Cmder) (cost : Int) : Except Panic (Context × List ZapField) := do
  let args := cmds.map (fun cmd => cmd.Args)
  let response := cmds.map (fun cmd => cmd.String)
  let method ←
    if isPipeline then pure "pipeline"
    else match cmds with
      | [] => throw Panic.indexOutOfRange
      | cmd :: _ => pure cmd.Name
  let logFields := logger.ValueHTTPFields ctx
  let logFields := { logFields with Header := [] }
  let logFields := { logFields with Method := method }
  let logFields := { logFields with Request := args }
  let logFields := { logFields with Response := response }
  let logFields := { logFields with Code := 0 }
  let logFields := { logFields with ClientIP := logFields.ServerIP }
  let logFields := { logFields with ClientPort := logFields.ServerPort }
  let logFields := { logFields with ServerIP := rl.Config.Host }
  let logFields := { logFields with ServerPort := rl.Config.Port }
  let logFields := { logFields with API := method }
  let logFields := { logFields with Cost := cost }
  let newCtx := Context.withValue ctx (Key.str "rpc") (Any.str "rpc")
  let newCtx := logger.WithHTTPFields newCtx logFields
  pure (newCtx, [])

/-- The method `Info`. -/
def RedisLogger.Info (rl : RedisLogger) (ctx : Context) (isPipeline : Bool)
    (cmds : List Cmder) (cost : Int) : Except Panic (List logger.LogRecord) := do
  let (newCtx, _logFields) ← rl.fields ctx isPipeline cmds cost
  match rl.Logger with
  | none => throw Panic.nilDereference
  | some l => pure [l.Info newCtx "info"]

/-- The loop of `Error` from index `idx` on, with the entries `errs` collected so far:
`none` when the loop hits a command whose error is nil and the method returns at once. -/
def errorLoop : Nat → List Cmder → List String → Option (List String)
  | _, [], errs => some errs
  | idx, cmd :: rest, errs =>
    match cmd.Err with
    | none => none
    | some err => errorLoop (idx + 1) rest (errs ++ [Itoa idx ++ "-" ++ err.Error])

/-- The method `Error`. -/
def RedisLogger.Error (rl : RedisLogger) (ctx : Context) (isPipeline : Bool)
    (cmds : List Cmder) (cost : Int) : Except Panic (List logger.LogRecord) :=
  match errorLoop 0 cmds [] with
  | none => pure []
  | some errs => do
    let (newCtx, _logFields) ← rl.fields ctx isPipeline cmds cost
    match rl.Logger with
    | none => throw Panic.nilDereference
    | some l => pure [l.Error newCtx (Join errs ",")]

/-- BeforeProcess redis before execute action do something. -/
def RedisLogger.BeforeProcess (rl : RedisLogger) (ctx : Context) (now : Time) (_cmd : Cmder) :
    Context × Option Err :=
  (rl.setCmdStart ctx now, none)

/-- AfterProcess redis after execute action do something: the returned error and the records
emitted. -/
def RedisLogger.AfterProcess (rl : RedisLogger) (ctx : Context) (now : Time) (cmd : Cmder) :
    Except Panic (Option Err × List logger.LogRecord) :=
  match rl.Logger with
  | none => pure (none, [])
  | some _ => do
    let cost ← rl.getCmdCost ctx now
    if cmd.Err ≠ none ∧ cmd.Err ≠ some Err.Nil then
      let log ← rl.Error ctx false [cmd] cost
      pure (none, log)
    else
      let log ← rl.Info ctx false [cmd] cost
      pure (none, log)

/-- BeforeProcessPipeline before command process handle. -/
def RedisLogger.BeforeProcessPipeline (rl : RedisLogger) (ctx : Context) (now : Time)
    (_cmds : List Cmder) : Context × Option Err :=
  (rl.setCmdStart ctx now, none)

/-- The loop of `AfterProcessPipeline` computing `hasErr`. -/
def hasErrLoop : List Cmder → Bool → Bool
  | [], hasErr => hasErr
  | cmd :: rest, hasErr =>
    if cmd.Err ≠ none ∧ cmd.Err ≠ some Err.Nil then hasErrLoop rest true
    else hasErrLoop rest hasErr

/-- AfterProcessPipeline after command process handle: the returned error and the records
emitted. -/
def RedisLogger.AfterProcessPipeline (rl : RedisLogger) (ctx : Context) (now : Time)
    (cmds : List Cmder) : Except Panic (Option Err × List logger.LogRecord) :=
  match rl.Logger with
  | none => pure (none, [])
  | some _ => do
    let cost ← rl.getCmdCost ctx now
    let hasErr := hasErrLoop cmds false
    if hasErr then
      let log ← rl.Error ctx true cmds cost
      pure (none, log)
    else
      let log ← rl.Info ctx true cmds cost
      pure (none, log)

/-- The HTTP fields of a record emitted for a call named `method` that took `cost`. -/
def Describes (rl : RedisLogger) (ctx : Context) (method : String) (cost : Int)
    (r : logger.LogRecord) : Prop :=
  r.fields.Method = method ∧ r.fields.API = method ∧ r.fields.Cost = cost ∧
  r.fields.ClientIP = (logger.ValueHTTPFields ctx).ServerIP ∧
  r.fields.ClientPort = (logger.ValueHTTPFields ctx).ServerPort ∧
  r.fields.ServerIP = rl.Config.Host ∧ r.fields.ServerPort = rl.Config.Port

end redis

/-! ## libraries/jaeger/jaeger.go -/

namespace jaeger

/-- The constant `FIELD_LOG_ID`. -/
def FIELD_LOG_ID : String := "Log-Id"
/-- The constant `FIELD_TRACE_ID`. -/
def FIELD_TRACE_ID : String := "Trace-Id"
/-- The constant `FIELD_SPAN_ID`. -/
def FIELD_SPAN_ID : String := "Span-Id"
/-- The constant `FIELD_TRACER`. -/
def FIELD_TRACER : String := "Tracer"
/-- The constant `FIELD_SPAN_CONTEXT`. -/
def FIELD_SPAN_CONTEXT : String := "Span"
/-- The constant `OPERATION_TYPE_REDIS`. -/
def OPERATION_TYPE_REDIS : String := "Redis"

/-- An `http.Header`, the carrier the trace context is written into. -/
abbrev Header := List (String × List String)

/-- The tracer library's own `jaeger.SpanContext`, reduced to its two identifiers; its zero
value has both equal to 0. -/
structure JaegerSpanContext where
  traceID : Nat
  spanID : Nat
deriving DecidableEq, Repr

/-- An `opentracing.SpanContext`: the jaeger one, or that of another implementation. -/
inductive SpanContext where
  | jaeger (sc : JaegerSpanContext)
  | foreign (id : Nat)
deriving DecidableEq, Repr

/-- The state of an `opentracing.Span`: what it was started with, and the tags and log fields
set on it so far, oldest first. -/
structure Span where
  operationName : String
  parent : SpanContext
  context : SpanContext
  tags : List (String × String)
  logs : List (String × String)
deriving DecidableEq, Repr

/-- The method `span.SetTag(key, value)`. -/
def Span.SetTag (span : Span) (key value : String) : Span :=
  { span with tags := span.tags ++ [(key, value)] }

/-- The method `span.LogFields(opentracing_log.String(key, value))`. -/
def Span.LogFields (span : Span) (key value : String) : Span :=
  { span with logs := span.logs ++ [(key, value)] }

/-- An `opentracing.Tracer`, an external collaborator: `Inject` serialises a span context into
the carrier and may fail, returning the carrier as it left it and the error text; `StartSpan`
starts a span from an operation name, a `ChildOf` parent and the start tags. -/
structure Tracer where
  Inject : SpanContext → Header → Header × Option String
  StartSpan : String → SpanContext → List (String × String) → Span

/-- A value of type `interface{}` stored under a key of the `gin.Context`. -/
inductive GinValue where
  | nil
  | str (s : String)
  | tracer (t : Tracer)
  | spanContext (sc : SpanContext)

/-- A `gin.Context`, reduced to its key/value store `Keys`. -/
structure GinContext where
  Keys : List (String × GinValue)

/-- The method `c.Get(key)`: the stored value and whether the key exists. -/
def GinContext.Get (c : GinContext) (key : String) : GinValue × Bool :=
  match c.Keys.find? (fun kv => kv.1 == key) with
  | some kv => (kv.2, true)
  | none => (GinValue.nil, false)

/-- What the functions of this file take from outside it: the process-wide tracer behind
`opentracing.StartSpan`, the tracer library's renderings `TraceID().String()` and
`SpanID().String()` of an identifier, and `logging.ValueLogID` of a sibling package. -/
structure Env where
  globalTracer : Tracer
  TraceIDString : Nat → String
  SpanIDString : Nat → String
  ValueLogID : GinContext → String

/-- A call made to a tracer. -/
inductive Event where
  | startSpan (operationName : String)
  | inject (sc : SpanContext)
deriving DecidableEq, Repr

/-- What an injection leaves behind when it returns: the results `span` and `err`, the header
carrier, and the calls made to tracers, oldest first. -/
structure InjectResult where
  span : Option Span
  err : Option String
  header : Header
  events : List Event
deriving DecidableEq, Repr

/-- The function `getInjectParent`: a nil tracer or span context is `none`. -/
def getInjectParent (c : GinContext) : Option Tracer × Option SpanContext × Bool :=
  match c.Get FIELD_TRACER with
  | (_, false) => (none, none, false)
  | (_tracer, true) =>
    match _tracer with
    | GinValue.tracer tracer =>
      match c.Get FIELD_SPAN_CONTEXT with
      | (_, false) => (some tracer, none, false)
      | (_spanContext, true) =>
        match _spanContext with
        | GinValue.spanContext spanContext => (some tracer, some spanContext, true)
        | _ => (some tracer, none, false)
    | _ => (none, none, false)

/-- The function `spanContextToJaegerContext`. -/
def spanContextToJaegerContext (spanContext : SpanContext) : JaegerSpanContext :=
  match spanContext with
  | SpanContext.jaeger sc => sc
  | _ => { traceID := 0, spanID := 0 }

/-- The function `SetTag`. -/
def SetTag (env : Env) (c : GinContext) (span : Span) (spanContext : SpanContext) : Span :=
  let jaegerSpanContext := spanContextToJaegerContext spanContext
  let span := span.SetTag FIELD_TRACE_ID (env.TraceIDString jaegerSpanContext.traceID)
  let span := span.SetTag FIELD_SPAN_ID (env.SpanIDString jaegerSpanContext.spanID)
  span.SetTag FIELD_LOG_ID (env.ValueLogID c)

/-- The function `InjectHTTP`.  Its result `span` is never assigned, so the call
`span.LogFields` on the error path is a method call on a nil interface. -/
def InjectHTTP (c : GinContext) (header : Header) (_operationName _operationType : String) :
    Except Panic InjectResult :=
  let span : Option Span := none
  match getInjectParent c with
  | (_, _, false) => pure { span := span, err := none, header := header, events := [] }
  | (tracer, parentSpanContext, true) =>
    match tracer, parentSpanContext with
    | some tracer, some parentSpanContext =>
      let (header, err) := tracer.Inject parentSpanContext header
      let events := [Event.inject parentSpanContext]
      match err with
      | some e =>
        match span with
        | none => throw Panic.nilDereference
        | some span =>
          pure { span := some (span.LogFields "inject-next-error" e), err := err,
                 header := header, events := events }
      | none => pure { span := span, err := err, header := header, events := events }
    | _, _ => throw Panic.nilDereference

/-- The function `InjectRedis`. -/
def InjectRedis (env : Env) (c : GinContext) (header : Header) (operationName args : String) :
    Except Panic InjectResult :=
  match getInjectParent c with
  | (_, _, false) => pure { span := none, err := none, header := header, events := [] }
  | (tracer, parentSpanContext, true) =>
    match tracer, parentSpanContext with
    | some tracer, some parentSpanContext =>
      let span := env.globalTracer.StartSpan operationName parentSpanContext
        [("component", OPERATION_TYPE_REDIS), ("args", args), ("span.kind", "client")]
      let span := SetTag env c span parentSpanContext
      let (header, err) := tracer.Inject span.context header
      let events := [Event.startSpan operationName, Event.inject span.context]
      match err with
      | some e =>
        pure { span := some (span.LogFields "inject-current-error" e), err := err,
               header := header, events := events }
      | none => pure { span := some span, err := err, header := header, events := events }
    | _, _ => throw Panic.nilDereference

/-- The tracer entry is present in the request context with a value of tracer type. -/
def TracerPresent (c : GinContext) : Prop :=
  ∃ t, c.Get FIELD_TRACER = (GinValue.tracer t, true)

/-- The parent span-context entry is present with a value of span-context type. -/
def ParentPresent (c : GinContext) : Prop :=
  ∃ sc, c.Get FIELD_SPAN_CONTEXT = (GinValue.spanContext sc, true)

end jaeger

/-! ## Sample inputs -/

/-- A command that succeeded. -/
def okCmd (name : String) : redis.Cmder :=
  { Name := name, Args := [name, "k"], Err := none, String := name ++ " k: v" }

/-- A command that failed with the error text `msg`. -/
def failedCmd (name msg : String) : redis.Cmder :=
  { Name := name, Args := [name, "k"], Err := some (redis.Err.other msg),
    String := name ++ " k: " ++ msg }

/-- A command whose error is the sentinel `redis.Nil`. -/
def nilCmd (name : String) : redis.Cmder :=
  { Name := name, Args := [name, "k"], Err := some redis.Err.Nil,
    String := name ++ " k: redis: nil" }

/-- A hook with a logger configured, for `10.0.0.9:6379`. -/
def sampleLogger : redis.RedisLogger :=
  { Logger := some { ServiceName := "svc" },
    Config := { InfoFile := "info.log", ErrorFile := "error.log", Level := "info",
                ServiceName := "svc", Host := "10.0.0.9", Port := 6379 } }

/-- A request context that already carries HTTP fields of the inbound request. -/
def sampleCtx : Context :=
  logger.WithHTTPFields Context.background
    { Fields.zero with ServerIP := "10.0.0.1", ServerPort := 8080, Method := "GET" }

/-- A tracer whose `Inject` always fails and leaves the carrier as it is. -/
def brokenTracer : jaeger.Tracer :=
  { Inject := fun _ header => (header, some "carrier rejected"),
    StartSpan := fun operationName parent tags =>
      { operationName := operationName, parent := parent,
        context := jaeger.SpanContext.jaeger { traceID := 7, spanID := 9 },
        tags := tags, logs := [] } }

/-- A request context carrying a tracer and a parent span context. -/
def tracedCtx : jaeger.GinContext :=
  { Keys := [("Tracer", jaeger.GinValue.tracer brokenTracer),
             ("Span", jaeger.GinValue.spanContext
                (jaeger.SpanContext.jaeger { traceID := 7, spanID := 8 }))] }

/-- A request context carrying no tracing entries at all. -/
def untracedCtx : jaeger.GinContext := { Keys := [("user", jaeger.GinValue.str "u1")] }

/-- Sixteen hexadecimal digits, zero-padded. -/
def hex16 (n : Nat) : String :=
  String.mk (List.replicate (16 - (Nat.toDigits 16 n).length) '0' ++ Nat.toDigits 16 n)

/-- The surroundings used in the examples. -/
def sampleEnv : jaeger.Env :=
  { globalTracer := brokenTracer, TraceIDString := hex16, SpanIDString := hex16,
    ValueLogID := fun _ => "log-1" }

/-! ## Lemmas shared by the theorems -/

namespace redis

theorem getCmdCost_setCmdStart (rl : RedisLogger) (ctx : Context) (t0 t1 : Time) :
    rl.getCmdCost (rl.setCmdStart ctx t0) t1 = Except.ok (Milliseconds (Since t1 t0)) := by
  simp [RedisLogger.getCmdCost, RedisLogger.setCmdStart, Context.Value]
  rfl

theorem fields_pipeline (rl : RedisLogger) (ctx : Context) (cmds : List Cmder) (cost : Int) :
    ∃ newCtx, rl.fields ctx true cmds cost = Except.ok (newCtx, []) ∧
      (logger.ValueHTTPFields newCtx).Method = "pipeline" ∧
      (logger.ValueHTTPFields newCtx).API = "pipeline" ∧
      (logger.ValueHTTPFields newCtx).Cost = cost ∧
      (logger.ValueHTTPFields newCtx).ClientIP = (logger.ValueHTTPFields ctx).ServerIP ∧
      (logger.ValueHTTPFields newCtx).ClientPort = (logger.ValueHTTPFields ctx).ServerPort ∧
      (logger.ValueHTTPFields newCtx).ServerIP = rl.Config.Host ∧
      (logger.ValueHTTPFields newCtx).ServerPort = rl.Config.Port := by
  refine ⟨_, rfl, ?_⟩
  simp [logger.ValueHTTPFields, logger.WithHTTPFields, Context.Value]

theorem fields_single (rl : RedisLogger) (ctx : Context) (cmd : Cmder) (rest : List Cmder)
    (cost : Int) :
    ∃ newCtx, rl.fields ctx false (cmd :: rest) cost = Except.ok (newCtx, []) ∧
      (logger.ValueHTTPFields newCtx).Method = cmd.Name ∧
      (logger.ValueHTTPFields newCtx).API = cmd.Name ∧
      (logger.ValueHTTPFields newCtx).Cost = cost ∧
      (logger.ValueHTTPFields newCtx).ClientIP = (logger.ValueHTTPFields ctx).ServerIP ∧
      (logger.ValueHTTPFields newCtx).ClientPort = (logger.ValueHTTPFields ctx).ServerPort ∧
      (logger.ValueHTTPFields newCtx).ServerIP = rl.Config.Host ∧
      (logger.ValueHTTPFields newCtx).ServerPort = rl.Config.Port := by
  refine ⟨_, rfl, ?_⟩
  simp [logger.ValueHTTPFields, logger.WithHTTPFields, Context.Value]

theorem Info_pipeline (rl : RedisLogger) (l : logger.Logger) (hl : rl.Logger = some l)
    (ctx : Context) (cmds : List Cmder) (cost : Int) :
    ∃ r, rl.Info ctx true cmds cost = Except.ok [r] ∧ r.level = logger.Level.info ∧
      r.msg = "info" ∧ Describes rl ctx "pipeline" cost r := by
  obtain ⟨newCtx, hf, h⟩ := fields_pipeline rl ctx cmds cost
  refine ⟨l.Info newCtx "info", ?_, rfl, rfl, h⟩
  simp [RedisLogger.Info, hf, hl, bind, Except.bind, pure, Except.pure]

theorem Info_single (rl : RedisLogger) (l : logger.Logger) (hl : rl.Logger = some l)
    (ctx : Context) (cmd : Cmder) (cost : Int) :
    ∃ r, rl.Info ctx false [cmd] cost = Except.ok [r] ∧ r.level = logger.Level.info ∧
      r.msg = "info" ∧ Describes rl ctx cmd.Name cost r := by
  obtain ⟨newCtx, hf, h⟩ := fields_single rl ctx cmd [] cost
  refine ⟨l.Info newCtx "info", ?_, rfl, rfl, h⟩
  simp [RedisLogger.Info, hf, hl, bind, Except.bind, pure, Except.pure]

theorem Error_single (rl : RedisLogger) (l : logger.Logger) (hl : rl.Logger = some l)
    (ctx : Context) (cmd : Cmder) (e : Err) (he : cmd.Err = some e) (cost : Int) :
    ∃ r, rl.Error ctx false [cmd] cost = Except.ok [r] ∧ r.level = logger.Level.error ∧
      r.msg = "0-" ++ e.Error ∧ Describes rl ctx cmd.Name cost r := by
  obtain ⟨newCtx, hf, h⟩ := fields_single rl ctx cmd [] cost
  refine ⟨l.Error newCtx ("0-" ++ e.Error), ?_, rfl, rfl, h⟩
  simp [RedisLogger.Error, errorLoop, he, hf, hl, bind, Except.bind, pure, Except.pure, Join,
    String.intercalate, Itoa]
  rfl

theorem Error_pipeline (rl : RedisLogger) (l : logger.Logger) (hl : rl.Logger = some l)
    (ctx : Context) (cmds : List Cmder) (cost : Int) :
    ∃ log, rl.Error ctx true cmds cost = Except.ok log ∧ log.length ≤ 1 ∧
      ∀ r ∈ log, r.level = logger.Level.error ∧ Describes rl ctx "pipeline" cost r := by
  obtain ⟨newCtx, hf, h⟩ := fields_pipeline rl ctx cmds cost
  unfold RedisLogger.Error
  cases errorLoop 0 cmds [] with
  | none => exact ⟨[], rfl, by simp, by simp⟩
  | some errs =>
    refine ⟨[l.Error newCtx (Join errs ",")], ?_, by simp, ?_⟩
    · simp [hf, hl, bind, Except.bind, pure, Except.pure]
    · intro r hr
      simp at hr
      subst hr
      exact ⟨rfl, h⟩

theorem Since_of_le (t0 t1 : Int) (h0 : 0 ≤ t0) (h01 : t0 ≤ t1) (h1 : t1 < 2 ^ 63) :
    Since t1 t0 = t1 - t0 := by
  have hw : wrap64 (t1 - t0) = t1 - t0 := by
    unfold wrap64
    rw [Int.emod_eq_of_lt (by omega) (by omega)]
    omega
  unfold Since subMono
  simp only [hw]
  have hd : ¬ (t1 - t0 < 0) := by omega
  have hu : ¬ (t1 < t0) := by omega
  simp [hd, hu]

theorem Milliseconds_of_nonneg (d : Int) (hd : 0 ≤ d) :
    Milliseconds d = d / 1000000 ∧ 0 ≤ d / 1000000 := by
  unfold Milliseconds
  refine ⟨Int.tdiv_eq_ediv hd (by decide), ?_⟩
  exact Int.ediv_nonneg hd (by decide)

theorem getCmdCost_of_start (rl : RedisLogger) (ctx : Context) (t0 t1 : Time)
    (hs : ctx.Value cmdStart = Any.time t0) :
    rl.getCmdCost ctx t1 = Except.ok (Milliseconds (Since t1 t0)) := by
  simp [RedisLogger.getCmdCost, hs]
  rfl

theorem AfterProcess_of_start (rl : RedisLogger) (l : logger.Logger) (hl : rl.Logger = some l)
    (ctx : Context) (t0 t1 : Time) (hs : ctx.Value cmdStart = Any.time t0) (cmd : Cmder) :
    ∃ r, rl.AfterProcess ctx t1 cmd = Except.ok (none, [r]) ∧
      Describes rl ctx cmd.Name (Milliseconds (Since t1 t0)) r := by
  have hc := getCmdCost_of_start rl ctx t0 t1 hs
  unfold RedisLogger.AfterProcess
  simp only [hl, hc]
  by_cases hfail : cmd.Err ≠ none ∧ cmd.Err ≠ some Err.Nil
  · obtain ⟨e, he⟩ := Option.ne_none_iff_exists'.mp hfail.1
    obtain ⟨r, hr, -, -, hd⟩ := Error_single rl l hl ctx cmd e he (Milliseconds (Since t1 t0))
    exact ⟨r, by simp [hfail, hr, bind, Except.bind, pure, Except.pure], hd⟩
  · obtain ⟨r, hr, -, -, hd⟩ := Info_single rl l hl ctx cmd (Milliseconds (Since t1 t0))
    exact ⟨r, by simp [hfail, hr, bind, Except.bind, pure, Except.pure], hd⟩

theorem AfterProcessPipeline_of_start (rl : RedisLogger) (l : logger.Logger)
    (hl : rl.Logger = some l) (ctx : Context) (t0 t1 : Time)
    (hs : ctx.Value cmdStart = Any.time t0) (cmds : List Cmder) :
    ∃ log, rl.AfterProcessPipeline ctx t1 cmds = Except.ok (none, log) ∧ log.length ≤ 1 ∧
      (hasErrLoop cmds false = false → log.length = 1) ∧
      ∀ r ∈ log, Describes rl ctx "pipeline" (Milliseconds (Since t1 t0)) r := by
  have hc := getCmdCost_of_start rl ctx t0 t1 hs
  unfold RedisLogger.AfterProcessPipeline
  simp only [hl, hc]
  cases hh : hasErrLoop cmds false with
  | true =>
    obtain ⟨log, hlog, hlen, hd⟩ :=
      Error_pipeline rl l hl ctx cmds (Milliseconds (Since t1 t0))
    refine ⟨log, by simp [hlog, bind, Except.bind, pure, Except.pure], hlen, by simp, ?_⟩
    intro r hr
    exact (hd r hr).2
  | false =>
    obtain ⟨r, hr, -, -, hd⟩ := Info_pipeline rl l hl ctx cmds (Milliseconds (Since t1 t0))
    refine ⟨[r], by simp [hr, bind, Except.bind, pure, Except.pure], by simp, by simp, ?_⟩
    intro r' hr'
    simp at hr'
    subst hr'
    exact hd

theorem errorLoop_of_all_failed (cmds : List Cmder) (h : ∀ c ∈ cmds, c.Err ≠ none) (idx : Nat)
    (errs : List String) : ∃ out, errorLoop idx cmds errs = some out := by
  induction cmds generalizing idx errs with
  | nil => exact ⟨errs, rfl⟩
  | cons c rest ih =>
    obtain ⟨e, he⟩ := Option.ne_none_iff_exists'.mp (h c (by simp))
    simp only [errorLoop, he]
    exact ih (fun d hd => h d (by simp [hd])) _ _

theorem Error_pipeline_all_failed (rl : RedisLogger) (l : logger.Logger)
    (hl : rl.Logger = some l) (ctx : Context) (cmds : List Cmder)
    (h : ∀ c ∈ cmds, c.Err ≠ none) (cost : Int) :
    ∃ r, rl.Error ctx true cmds cost = Except.ok [r] ∧ r.level = logger.Level.error ∧
      Describes rl ctx "pipeline" cost r := by
  obtain ⟨newCtx, hf, hd⟩ := fields_pipeline rl ctx cmds cost
  obtain ⟨errs, he⟩ := errorLoop_of_all_failed cmds h 0 []
  refine ⟨l.Error newCtx (Join errs ","), ?_, rfl, hd⟩
  simp [RedisLogger.Error, he, hf, hl, bind, Except.bind, pure, Except.pure]

theorem AfterProcessPipeline_one_record (rl : RedisLogger) (l : logger.Logger)
    (hl : rl.Logger = some l) (ctx : Context) (t0 t1 : Time)
    (hs : ctx.Value cmdStart = Any.time t0) (cmds : List Cmder)
    (h : hasErrLoop cmds false = false ∨ ∀ c ∈ cmds, c.Err ≠ none) :
    ∃ r, rl.AfterProcessPipeline ctx t1 cmds = Except.ok (none, [r]) ∧
      Describes rl ctx "pipeline" (Milliseconds (Since t1 t0)) r := by
  have hc := getCmdCost_of_start rl ctx t0 t1 hs
  unfold RedisLogger.AfterProcessPipeline
  simp only [hl, hc]
  cases hh : hasErrLoop cmds false with
  | false =>
    obtain ⟨r, hr, -, -, hd⟩ := Info_pipeline rl l hl ctx cmds (Milliseconds (Since t1 t0))
    exact ⟨r, by simp [hr, bind, Except.bind, pure, Except.pure], hd⟩
  | true =>
    rcases h with h | h
    · rw [hh] at h
      cases h
    · obtain ⟨r, hr, -, hd⟩ :=
        Error_pipeline_all_failed rl l hl ctx cmds h (Milliseconds (Since t1 t0))
      exact ⟨r, by simp [hr, bind, Except.bind, pure, Except.pure], hd⟩

theorem Value_cmdStart_setCmdStart (rl : RedisLogger) (ctx : Context) (t0 : Time) :
    (rl.setCmdStart ctx t0).Value cmdStart = Any.time t0 := by
  simp [RedisLogger.setCmdStart, Context.Value]

end redis

theorem Context.Value_of_Unbound (key : Key) (ctx : Context) (h : ctx.Unbound key) :
    ctx.Value key = Any.nil := by
  induction ctx with
  | background => rfl
  | withValue parent k v ih =>
    obtain ⟨hk, hp⟩ := h
    simp [Context.Value, hk, ih hp]

namespace jaeger

theorem getInjectParent_present (c : GinContext) (t : Tracer) (sc : SpanContext)
    (ht : c.Get FIELD_TRACER = (GinValue.tracer t, true))
    (hsc : c.Get FIELD_SPAN_CONTEXT = (GinValue.spanContext sc, true)) :
    getInjectParent c = (some t, some sc, true) := by
  simp [getInjectParent, ht, hsc]

theorem getInjectParent_absent (c : GinContext) (h : ¬ TracerPresent c ∨ ¬ ParentPresent c) :
    (getInjectParent c).2.2 = false := by
  unfold getInjectParent
  rcases h1 : c.Get FIELD_TRACER with ⟨v, b⟩
  cases b with
  | false => rfl
  | true =>
    cases v with
    | nil => rfl
    | str s => rfl
    | spanContext sc => rfl
    | tracer t =>
      rcases h2 : c.Get FIELD_SPAN_CONTEXT with ⟨w, b2⟩
      cases b2 with
      | false => rfl
      | true =>
        cases w with
        | nil => rfl
        | str s => rfl
        | tracer t2 => rfl
        | spanContext sc =>
          exfalso
          rcases h with h | h
          · exact h ⟨t, h1⟩
          · exact h ⟨sc, h2⟩

theorem SetTag_context (env : Env) (c : GinContext) (span : Span) (sc : SpanContext) :
    (SetTag env c span sc).context = span.context := rfl

theorem InjectHTTP_inject_error (c : GinContext) (header : Header)
    (operationName operationType : String) (t : Tracer) (sc : SpanContext) (e : String)
    (ht : c.Get FIELD_TRACER = (GinValue.tracer t, true))
    (hsc : c.Get FIELD_SPAN_CONTEXT = (GinValue.spanContext sc, true))
    (he : (t.Inject sc header).2 = some e) :
    InjectHTTP c header operationName operationType = Except.error Panic.nilDereference := by
  simp [InjectHTTP, getInjectParent_present c t sc ht hsc, he]
  rfl

theorem InjectRedis_inject_error (env : Env) (c : GinContext) (header : Header)
    (operationName args : String) (t : Tracer) (sc : SpanContext) (e : String)
    (ht : c.Get FIELD_TRACER = (GinValue.tracer t, true))
    (hsc : c.Get FIELD_SPAN_CONTEXT = (GinValue.spanContext sc, true))
    (he : (t.Inject (env.globalTracer.StartSpan operationName sc
        [("component", OPERATION_TYPE_REDIS), ("args", args), ("span.kind", "client")]).context
        header).2 = some e) :
    InjectRedis env c header operationName args
      = Except.ok
          { span := some ((SetTag env c (env.globalTracer.StartSpan operationName sc
              [("component", OPERATION_TYPE_REDIS), ("args", args), ("span.kind", "client")])
              sc).LogFields "inject-current-error" e),
            err := some e,
            header := (t.Inject (env.globalTracer.StartSpan operationName sc
              [("component", OPERATION_TYPE_REDIS), ("args", args),
               ("span.kind", "client")]).context header).1,
            events := [Event.startSpan operationName,
              Event.inject (env.globalTracer.StartSpan operationName sc
                [("component", OPERATION_TYPE_REDIS), ("args", args),
                 ("span.kind", "client")]).context] } := by
  have hg := getInjectParent_present c t sc ht hsc
  unfold InjectRedis
  simp only [hg, SetTag_context, he]
  rfl

theorem SetTag_logs (env : Env) (c : GinContext) (span : Span) (sc : SpanContext) :
    (SetTag env c span sc).logs = span.logs := rfl

end jaeger

/-! ## The redis logging hook -/

open redis

/-- C1, the code as written.  `RedisLogger.Error` leaves its loop through `return` at the first
command whose error is nil: for the batch of three commands where only index 1 fails with
"boom" it reaches the log sink not at all, so no message "1-boom" is emitted.  And it does not
set the sentinel apart: for a batch of the sentinel followed by "boom" the message holds the
entry of the sentinel too. -/
theorem C1_Error_returns_at_nil_error_and_lists_sentinel :
    sampleLogger.Error sampleCtx true [okCmd "get", failedCmd "set" "boom", okCmd "get"] 3
      = Except.ok [] ∧
    (sampleLogger.Error sampleCtx true [nilCmd "get", failedCmd "set" "boom"] 3).toOption.map
      (fun log => log.map (fun r => (r.level, r.msg)))
      = some [(logger.Level.error, "0-redis: nil,1-boom")] := by
  constructor
  · rfl
  · decide

/-- C2, the code as written.  For a batch in which one command succeeded and one failed with
"boom", `AfterProcessPipeline` (logger configured, context from `BeforeProcessPipeline`) finds
`hasErr` true, calls `Error`, and `Error` returns at the command whose error is nil: the hook
returns nil and has emitted no record at all, neither at error nor at info level. -/
theorem C2_AfterProcessPipeline_mixed_batch_emits_no_record :
    hasErrLoop [okCmd "get", failedCmd "set" "boom"] false = true ∧
    sampleLogger.AfterProcessPipeline
        (sampleLogger.BeforeProcessPipeline sampleCtx 1000
          [okCmd "get", failedCmd "set" "boom"]).1
        5001000 [okCmd "get", failedCmd "set" "boom"]
      = Except.ok (none, []) := by
  constructor
  · decide
  · rfl

/-- C3.  With a logger configured and the context returned by `BeforeProcess`, `AfterProcess`
returns nil and emits exactly one record; the record is at error level if and only if the
error of the command is non-nil and not the sentinel `redis.Nil`, and at info level otherwise;
in particular a command whose error is the sentinel is logged at info level. -/
theorem C3_AfterProcess_one_record_level (rl : RedisLogger) (l : logger.Logger)
    (hl : rl.Logger = some l) (ctx0 : Context) (t0 t1 : Time) (cmd : Cmder) :
    ∃ r, rl.AfterProcess (rl.BeforeProcess ctx0 t0 cmd).1 t1 cmd = Except.ok (none, [r]) ∧
      (r.level = logger.Level.error ↔ (cmd.Err ≠ none ∧ cmd.Err ≠ some Err.Nil)) ∧
      (r.level = logger.Level.info ↔ ¬ (cmd.Err ≠ none ∧ cmd.Err ≠ some Err.Nil)) ∧
      (cmd.Err = some Err.Nil → r.level = logger.Level.info) := by
  have hc := getCmdCost_setCmdStart rl ctx0 t0 t1
  unfold RedisLogger.AfterProcess RedisLogger.BeforeProcess
  simp only [hl, hc]
  by_cases hfail : cmd.Err ≠ none ∧ cmd.Err ≠ some Err.Nil
  · obtain ⟨e, he⟩ := Option.ne_none_iff_exists'.mp hfail.1
    obtain ⟨r, hr, hlev, -, -⟩ :=
      Error_single rl l hl (rl.setCmdStart ctx0 t0) cmd e he (Milliseconds (Since t1 t0))
    refine ⟨r, ?_, ?_, ?_, ?_⟩
    · simp [hfail, hr, bind, Except.bind, pure, Except.pure]
    · simp [hlev, hfail]
    · simp [hlev, hfail]
    · intro hn
      exact absurd hn hfail.2
  · obtain ⟨r, hr, hlev, -, -⟩ :=
      Info_single rl l hl (rl.setCmdStart ctx0 t0) cmd (Milliseconds (Since t1 t0))
    refine ⟨r, ?_, ?_, ?_, ?_⟩
    · simp [hfail, hr, bind, Except.bind, pure, Except.pure]
    · simp [hlev, hfail]
    · simp [hlev, hfail]
    · intro _
      exact hlev

/-- C3 at a command whose error is the sentinel, and at one that failed. -/
theorem C3_AfterProcess_one_record_level_witness :
    sampleLogger.Logger = some { ServiceName := "svc" } ∧
    ∃ r, sampleLogger.AfterProcess (sampleLogger.BeforeProcess sampleCtx 1000 (nilCmd "get")).1
        5001000 (nilCmd "get") = Except.ok (none, [r]) ∧
      (r.level = logger.Level.error ↔
        ((nilCmd "get").Err ≠ none ∧ (nilCmd "get").Err ≠ some Err.Nil)) ∧
      (r.level = logger.Level.info ↔
        ¬ ((nilCmd "get").Err ≠ none ∧ (nilCmd "get").Err ≠ some Err.Nil)) ∧
      ((nilCmd "get").Err = some Err.Nil → r.level = logger.Level.info) :=
  ⟨rfl, C3_AfterProcess_one_record_level sampleLogger { ServiceName := "svc" } rfl sampleCtx
    1000 5001000 (nilCmd "get")⟩

/-- C4 as stated fails: on a context that never passed through a before hook (no start
timestamp stored), with a logger configured, both after hooks abort in the single-value type
assertion of `getCmdCost`. -/
theorem C4_after_hooks_abort_without_start_timestamp :
    sampleCtx.Value cmdStart = Any.nil ∧
    sampleLogger.AfterProcess sampleCtx 5001000 (okCmd "get")
      = Except.error Panic.typeAssertion ∧
    sampleLogger.AfterProcessPipeline sampleCtx 5001000 [okCmd "get"]
      = Except.error Panic.typeAssertion :=
  ⟨rfl, rfl, rfl⟩

/-- C4, amended.  For every context that carries a start timestamp under `cmdStart` (as the
before hooks store it), or when no logger is configured, and for every command and every batch
(the empty one included), `AfterProcess` and `AfterProcessPipeline` complete without a panic
and return a nil error. -/
theorem C4_after_hooks_return_nil (rl : RedisLogger) (ctx : Context) (now : Time)
    (cmd : Cmder) (cmds : List Cmder)
    (h : rl.Logger = none ∨ ∃ t, ctx.Value cmdStart = Any.time t) :
    (∃ log, rl.AfterProcess ctx now cmd = Except.ok (none, log)) ∧
    (∃ log, rl.AfterProcessPipeline ctx now cmds = Except.ok (none, log)) := by
  cases hl : rl.Logger with
  | none =>
    exact ⟨⟨[], by simp [RedisLogger.AfterProcess, hl, pure, Except.pure]⟩,
      ⟨[], by simp [RedisLogger.AfterProcessPipeline, hl, pure, Except.pure]⟩⟩
  | some l =>
    rcases h with h | ⟨t, ht⟩
    · rw [hl] at h
      cases h
    · obtain ⟨r, hr, -⟩ := AfterProcess_of_start rl l hl ctx t now ht cmd
      obtain ⟨log, hlog, -⟩ := AfterProcessPipeline_of_start rl l hl ctx t now ht cmds
      exact ⟨⟨[r], hr⟩, ⟨log, hlog⟩⟩

/-- C4, amended, at a context returned by `BeforeProcess`, a failed command and the empty
batch. -/
theorem C4_after_hooks_return_nil_witness :
    (sampleLogger.Logger = none ∨
      ∃ t, (sampleLogger.setCmdStart sampleCtx 1000).Value cmdStart = Any.time t) ∧
    (∃ log, sampleLogger.AfterProcess (sampleLogger.setCmdStart sampleCtx 1000) 5001000
      (failedCmd "set" "boom") = Except.ok (none, log)) ∧
    (∃ log, sampleLogger.AfterProcessPipeline (sampleLogger.setCmdStart sampleCtx 1000) 5001000
      [] = Except.ok (none, log)) :=
  ⟨Or.inr ⟨1000, rfl⟩,
    C4_after_hooks_return_nil sampleLogger (sampleLogger.setCmdStart sampleCtx 1000) 5001000
      (failedCmd "set" "boom") [] (Or.inr ⟨1000, rfl⟩)⟩

/-- C7.  With a logger configured and the context of the before hook: the one record
`AfterProcess` emits for a single command has Method and API both equal to the name of that
command; every record `AfterProcessPipeline` emits for a batch (of any size, whatever the names
of its commands) has Method and API both equal to the literal "pipeline", and so have the
fields `fields` builds for any batch. -/
theorem C7_method_and_api (rl : RedisLogger) (l : logger.Logger) (hl : rl.Logger = some l)
    (ctx0 : Context) (t0 t1 : Time) (cmd : Cmder) (cmds : List Cmder) :
    (∃ r, rl.AfterProcess (rl.BeforeProcess ctx0 t0 cmd).1 t1 cmd = Except.ok (none, [r]) ∧
      r.fields.Method = cmd.Name ∧ r.fields.API = cmd.Name) ∧
    (∃ log, rl.AfterProcessPipeline (rl.BeforeProcessPipeline ctx0 t0 cmds).1 t1 cmds
        = Except.ok (none, log) ∧
      ∀ r ∈ log, r.fields.Method = "pipeline" ∧ r.fields.API = "pipeline") ∧
    (∀ ctx cost, ∃ newCtx, rl.fields ctx true cmds cost = Except.ok (newCtx, []) ∧
      (logger.ValueHTTPFields newCtx).Method = "pipeline" ∧
      (logger.ValueHTTPFields newCtx).API = "pipeline") := by
  have hs := Value_cmdStart_setCmdStart rl ctx0 t0
  refine ⟨?_, ?_, ?_⟩
  · obtain ⟨r, hr, hm, ha, -⟩ :=
      AfterProcess_of_start rl l hl (rl.setCmdStart ctx0 t0) t0 t1 hs cmd
    exact ⟨r, hr, hm, ha⟩
  · obtain ⟨log, hlog, -, -, hd⟩ :=
      AfterProcessPipeline_of_start rl l hl (rl.setCmdStart ctx0 t0) t0 t1 hs cmds
    exact ⟨log, hlog, fun r hr => ⟨(hd r hr).1, (hd r hr).2.1⟩⟩
  · intro ctx cost
    obtain ⟨newCtx, hf, hm, ha, -⟩ := fields_pipeline rl ctx cmds cost
    exact ⟨newCtx, hf, hm, ha⟩

/-- C7 at the command `get` and at a batch of one `get`. -/
theorem C7_method_and_api_witness :
    sampleLogger.Logger = some { ServiceName := "svc" } ∧
    (∃ r, sampleLogger.AfterProcess (sampleLogger.BeforeProcess sampleCtx 1000 (okCmd "get")).1
        5001000 (okCmd "get") = Except.ok (none, [r]) ∧
      r.fields.Method = (okCmd "get").Name ∧ r.fields.API = (okCmd "get").Name) ∧
    (∃ log, sampleLogger.AfterProcessPipeline
        (sampleLogger.BeforeProcessPipeline sampleCtx 1000 [okCmd "get"]).1 5001000
        [okCmd "get"] = Except.ok (none, log) ∧
      ∀ r ∈ log, r.fields.Method = "pipeline" ∧ r.fields.API = "pipeline") ∧
    (∀ ctx cost, ∃ newCtx,
      sampleLogger.fields ctx true [okCmd "get"] cost = Except.ok (newCtx, []) ∧
      (logger.ValueHTTPFields newCtx).Method = "pipeline" ∧
      (logger.ValueHTTPFields newCtx).API = "pipeline") :=
  ⟨rfl, C7_method_and_api sampleLogger { ServiceName := "svc" } rfl sampleCtx 1000 5001000
    (okCmd "get") [okCmd "get"]⟩

/-- C8.  For every context and every call, single (a non-empty command list) or batch, the
HTTP fields built by `fields` have ClientIP and ClientPort equal to the ServerIP and ServerPort
of the HTTP fields stored in the incoming context (the zero values "" and 0 when none are
stored), and ServerIP and ServerPort equal to the Host and Port of the configuration. -/
theorem C8_fields_swap (rl : RedisLogger) (ctx : Context) (isPipeline : Bool)
    (cmds : List Cmder) (cost : Int) (h : isPipeline = true ∨ cmds ≠ []) :
    ∃ newCtx, rl.fields ctx isPipeline cmds cost = Except.ok (newCtx, []) ∧
      (logger.ValueHTTPFields newCtx).ClientIP = (logger.ValueHTTPFields ctx).ServerIP ∧
      (logger.ValueHTTPFields newCtx).ClientPort = (logger.ValueHTTPFields ctx).ServerPort ∧
      (logger.ValueHTTPFields newCtx).ServerIP = rl.Config.Host ∧
      (logger.ValueHTTPFields newCtx).ServerPort = rl.Config.Port ∧
      (ctx.Value logger.contextHTTPLogFields = Any.nil →
        (logger.ValueHTTPFields newCtx).ClientIP = "" ∧
        (logger.ValueHTTPFields newCtx).ClientPort = 0) := by
  have hz : ctx.Value logger.contextHTTPLogFields = Any.nil →
      (logger.ValueHTTPFields ctx).ServerIP = "" ∧
      (logger.ValueHTTPFields ctx).ServerPort = 0 := by
    intro hn
    simp [logger.ValueHTTPFields, hn, Fields.zero]
  cases isPipeline with
  | true =>
    obtain ⟨newCtx, hf, -, -, -, h1, h2, h3, h4⟩ := fields_pipeline rl ctx cmds cost
    exact ⟨newCtx, hf, h1, h2, h3, h4, fun hn => ⟨h1.trans (hz hn).1, h2.trans (hz hn).2⟩⟩
  | false =>
    cases cmds with
    | nil => simp at h
    | cons cmd rest =>
      obtain ⟨newCtx, hf, -, -, -, h1, h2, h3, h4⟩ := fields_single rl ctx cmd rest cost
      exact ⟨newCtx, hf, h1, h2, h3, h4, fun hn => ⟨h1.trans (hz hn).1, h2.trans (hz hn).2⟩⟩

/-- C8 at a single command, on a context whose stored fields name the server 10.0.0.1:8080. -/
theorem C8_fields_swap_witness :
    (false = true ∨ [okCmd "get"] ≠ []) ∧
    ∃ newCtx, sampleLogger.fields sampleCtx false [okCmd "get"] 5 = Except.ok (newCtx, []) ∧
      (logger.ValueHTTPFields newCtx).ClientIP = (logger.ValueHTTPFields sampleCtx).ServerIP ∧
      (logger.ValueHTTPFields newCtx).ClientPort
        = (logger.ValueHTTPFields sampleCtx).ServerPort ∧
      (logger.ValueHTTPFields newCtx).ServerIP = sampleLogger.Config.Host ∧
      (logger.ValueHTTPFields newCtx).ServerPort = sampleLogger.Config.Port ∧
      (sampleCtx.Value logger.contextHTTPLogFields = Any.nil →
        (logger.ValueHTTPFields newCtx).ClientIP = "" ∧
        (logger.ValueHTTPFields newCtx).ClientPort = 0) :=
  ⟨Or.inr (by decide),
    C8_fields_swap sampleLogger sampleCtx false [okCmd "get"] 5 (Or.inr (by decide))⟩

/-- C9.  For clock readings `0 ≤ t0 ≤ t1 < 2^63` (monotonic nanoseconds, a non-negative signed
64-bit value): on the context the before hook produced at `t0`, the cost `getCmdCost` computes
at `t1` is `(t1 - t0) / 1000000`, the elapsed nanoseconds in whole milliseconds, and is
non-negative.  With a logger configured, that value is the Cost field of the one record
`AfterProcess` emits; it is the Cost field of every record `AfterProcessPipeline` emits, and
`AfterProcessPipeline` does emit exactly one record carrying it whenever no command of the
batch counts as failed or no command of the batch has a nil error.  And `fields` stores the
cost it is handed in the Cost field, for every call. -/
theorem C9_cost_is_elapsed_milliseconds (rl : RedisLogger) (l : logger.Logger)
    (hl : rl.Logger = some l) (ctx0 : Context) (t0 t1 : Int) (cmd : Cmder) (cmds : List Cmder)
    (h0 : 0 ≤ t0) (h01 : t0 ≤ t1) (h1 : t1 < 2 ^ 63) :
    rl.getCmdCost (rl.BeforeProcess ctx0 t0 cmd).1 t1 = Except.ok ((t1 - t0) / 1000000) ∧
    rl.getCmdCost (rl.BeforeProcessPipeline ctx0 t0 cmds).1 t1
      = Except.ok ((t1 - t0) / 1000000) ∧
    0 ≤ (t1 - t0) / 1000000 ∧
    (t1 - t0) / 1000000 = Int.tdiv (t1 - t0) 1000000 ∧
    (∃ r, rl.AfterProcess (rl.BeforeProcess ctx0 t0 cmd).1 t1 cmd = Except.ok (none, [r]) ∧
      r.fields.Cost = (t1 - t0) / 1000000) ∧
    (∃ log, rl.AfterProcessPipeline (rl.BeforeProcessPipeline ctx0 t0 cmds).1 t1 cmds
        = Except.ok (none, log) ∧
      (∀ r ∈ log, r.fields.Cost = (t1 - t0) / 1000000) ∧
      ((hasErrLoop cmds false = false ∨ ∀ c ∈ cmds, c.Err ≠ none) →
        ∃ r, log = [r] ∧ r.fields.Cost = (t1 - t0) / 1000000)) ∧
    (∀ (ctx : Context) (isPipeline : Bool) (cost : Int), (isPipeline = true ∨ cmds ≠ []) →
      ∃ newCtx, rl.fields ctx isPipeline cmds cost = Except.ok (newCtx, []) ∧
        (logger.ValueHTTPFields newCtx).Cost = cost) := by
  have hs := Value_cmdStart_setCmdStart rl ctx0 t0
  have hd : (0 : Int) ≤ t1 - t0 := by omega
  have hsince : Since t1 t0 = t1 - t0 := Since_of_le t0 t1 h0 h01 h1
  have hms : Milliseconds (Since t1 t0) = (t1 - t0) / 1000000 := by
    rw [hsince]
    exact (Milliseconds_of_nonneg _ hd).1
  have hcost := getCmdCost_setCmdStart rl ctx0 t0 t1
  rw [hms] at hcost
  refine ⟨hcost, hcost, (Milliseconds_of_nonneg _ hd).2, ?_, ?_, ?_, ?_⟩
  · exact (Int.tdiv_eq_ediv hd (by decide)).symm
  · obtain ⟨r, hr, -, -, hc, -⟩ :=
      AfterProcess_of_start rl l hl (rl.setCmdStart ctx0 t0) t0 t1 hs cmd
    exact ⟨r, hr, hc.trans hms⟩
  · obtain ⟨log, hlog, -, -, hdesc⟩ :=
      AfterProcessPipeline_of_start rl l hl (rl.setCmdStart ctx0 t0) t0 t1 hs cmds
    refine ⟨log, hlog, fun r hr => (hdesc r hr).2.2.1.trans hms, ?_⟩
    intro hcond
    obtain ⟨r, hr, hdr⟩ :=
      AfterProcessPipeline_one_record rl l hl (rl.setCmdStart ctx0 t0) t0 t1 hs cmds hcond
    have heq : (none, log) = ((none : Option Err), [r]) :=
      Except.ok.inj (hlog.symm.trans hr)
    exact ⟨r, (Prod.mk.inj heq).2, hdr.2.2.1.trans hms⟩
  · intro ctx isPipeline cost hcall
    cases isPipeline with
    | true =>
      obtain ⟨newCtx, hf, -, -, hc, -⟩ := fields_pipeline rl ctx cmds cost
      exact ⟨newCtx, hf, hc⟩
    | false =>
      cases cmds with
      | nil => simp at hcall
      | cons c rest =>
        obtain ⟨newCtx, hf, -, -, hc, -⟩ := fields_single rl ctx c rest cost
        exact ⟨newCtx, hf, hc⟩

/-- C9 at `t0 = 1000` and `t1 = 5001999` nanoseconds: 5000999 ns elapsed, cost 5 ms, in the
record of the single command `get`, in the one record of the batch of a `get` that succeeded
and a `get` that met the sentinel, and in the fields built for that batch. -/
theorem C9_cost_is_elapsed_milliseconds_witness :
    sampleLogger.Logger = some { ServiceName := "svc" } ∧
    (0 : Int) ≤ 1000 ∧ (1000 : Int) ≤ 5001999 ∧ (5001999 : Int) < 2 ^ 63 ∧
    sampleLogger.getCmdCost (sampleLogger.BeforeProcess sampleCtx 1000 (okCmd "get")).1 5001999
      = Except.ok 5 ∧
    (∃ r, sampleLogger.AfterProcess (sampleLogger.BeforeProcess sampleCtx 1000 (okCmd "get")).1
        5001999 (okCmd "get") = Except.ok (none, [r]) ∧
      r.fields.Cost = 5) ∧
    (∃ r, sampleLogger.AfterProcessPipeline
        (sampleLogger.BeforeProcessPipeline sampleCtx 1000 [okCmd "get", nilCmd "get"]).1
        5001999 [okCmd "get", nilCmd "get"] = Except.ok (none, [r]) ∧
      r.fields.Cost = 5) ∧
    (∃ newCtx, sampleLogger.fields sampleCtx true [okCmd "get", nilCmd "get"] 5
        = Except.ok (newCtx, []) ∧
      (logger.ValueHTTPFields newCtx).Cost = 5) := by
  have h := C9_cost_is_elapsed_milliseconds sampleLogger { ServiceName := "svc" } rfl sampleCtx
    1000 5001999 (okCmd "get") [okCmd "get", nilCmd "get"] (by decide) (by decide) (by decide)
  obtain ⟨h1, -, -, -, h5, ⟨log, hlog, -, hone⟩, h7⟩ := h
  obtain ⟨r, hr, hc⟩ := hone (Or.inl (by decide))
  subst hr
  exact ⟨rfl, by decide, by decide, by decide, h1, h5, ⟨r, hlog, hc⟩,
    h7 sampleCtx true 5 (Or.inl rfl)⟩

/-! ## The request context -/

/-- C10.  On a context in which the key of an accessor is bound nowhere (the matching `With*`
was never applied), `ValueTraceID` and `ValueLogID` return the empty string and
`ValueHTTPFields` returns the zero `Fields`; the accessors are total functions, so there is no
error or panic.  And applying `WithLogID`, `WithTraceID`, `WithHTTPFields` or the redis
logger's `setCmdStart` leaves what each of the other accessors returns unchanged (the start
timestamp read by `getCmdCost` included). -/
theorem C10_absent_keys_and_independence (ctx : Context) (val : Any) (fields : Fields)
    (rl : RedisLogger) (t now : Time) :
    (ctx.Unbound logger.contextTraceID → logger.ValueTraceID ctx = "") ∧
    (ctx.Unbound logger.contextLogID → logger.ValueLogID ctx = "") ∧
    (ctx.Unbound logger.contextHTTPLogFields → logger.ValueHTTPFields ctx = Fields.zero) ∧
    logger.ValueTraceID (logger.WithLogID ctx val) = logger.ValueTraceID ctx ∧
    logger.ValueHTTPFields (logger.WithLogID ctx val) = logger.ValueHTTPFields ctx ∧
    logger.ValueLogID (logger.WithTraceID ctx val) = logger.ValueLogID ctx ∧
    logger.ValueHTTPFields (logger.WithTraceID ctx val) = logger.ValueHTTPFields ctx ∧
    logger.ValueLogID (logger.WithHTTPFields ctx fields) = logger.ValueLogID ctx ∧
    logger.ValueTraceID (logger.WithHTTPFields ctx fields) = logger.ValueTraceID ctx ∧
    logger.ValueLogID (rl.setCmdStart ctx t) = logger.ValueLogID ctx ∧
    logger.ValueTraceID (rl.setCmdStart ctx t) = logger.ValueTraceID ctx ∧
    logger.ValueHTTPFields (rl.setCmdStart ctx t) = logger.ValueHTTPFields ctx ∧
    rl.getCmdCost (logger.WithLogID ctx val) now = rl.getCmdCost ctx now ∧
    rl.getCmdCost (logger.WithTraceID ctx val) now = rl.getCmdCost ctx now ∧
    rl.getCmdCost (logger.WithHTTPFields ctx fields) now = rl.getCmdCost ctx now := by
  refine ⟨?_, ?_, ?_, ?_, ?_, ?_, ?_, ?_, ?_, ?_, ?_, ?_, ?_, ?_, ?_⟩
  · intro h
    simp [logger.ValueTraceID, Context.Value_of_Unbound _ ctx h]
  · intro h
    simp [logger.ValueLogID, Context.Value_of_Unbound _ ctx h]
  · intro h
    simp [logger.ValueHTTPFields, Context.Value_of_Unbound _ ctx h]
  all_goals
    simp [logger.ValueTraceID, logger.ValueLogID, logger.ValueHTTPFields, logger.WithLogID,
      logger.WithTraceID, logger.WithHTTPFields, RedisLogger.setCmdStart,
      RedisLogger.getCmdCost, Context.Value, logger.contextLogID, logger.contextTraceID,
      logger.contextHTTPLogFields, cmdStart]

/-- C10 on a context that holds a start timestamp and nothing else. -/
theorem C10_absent_keys_and_independence_witness :
    (sampleLogger.setCmdStart Context.background 1000).Unbound logger.contextTraceID ∧
    (sampleLogger.setCmdStart Context.background 1000).Unbound logger.contextLogID ∧
    (sampleLogger.setCmdStart Context.background 1000).Unbound logger.contextHTTPLogFields ∧
    logger.ValueTraceID (sampleLogger.setCmdStart Context.background 1000) = "" ∧
    logger.ValueLogID (sampleLogger.setCmdStart Context.background 1000) = "" ∧
    logger.ValueHTTPFields (sampleLogger.setCmdStart Context.background 1000)
      = Fields.zero := by
  have h := C10_absent_keys_and_independence (sampleLogger.setCmdStart Context.background 1000)
    (Any.str "id-1") Fields.zero sampleLogger 1000 2000
  have u1 : (sampleLogger.setCmdStart Context.background 1000).Unbound logger.contextTraceID :=
    ⟨by decide, trivial⟩
  have u2 : (sampleLogger.setCmdStart Context.background 1000).Unbound logger.contextLogID :=
    ⟨by decide, trivial⟩
  have u3 :
      (sampleLogger.setCmdStart Context.background 1000).Unbound logger.contextHTTPLogFields :=
    ⟨by decide, trivial⟩
  exact ⟨u1, u2, u3, h.1 u1, h.2.1 u2, h.2.2.1 u3⟩

/-! ## Span injection -/

open jaeger

/-- C5, the code as written.  On a request context with a tracer and a parent span context,
and a tracer whose `Inject` returns the error "carrier rejected": `InjectHTTP` aborts, for it
calls `LogFields` on its result `span`, which nothing has assigned and is still nil;
`InjectRedis`, its sibling, does record the failure as the log field "inject-current-error" on
the span it started, and hands the error of `Inject` to its caller as its result `err`. -/
theorem C5_InjectHTTP_aborts_on_inject_error :
    tracedCtx.Get FIELD_TRACER = (GinValue.tracer brokenTracer, true) ∧
    tracedCtx.Get FIELD_SPAN_CONTEXT
      = (GinValue.spanContext (SpanContext.jaeger { traceID := 7, spanID := 8 }), true) ∧
    (brokenTracer.Inject (SpanContext.jaeger { traceID := 7, spanID := 8 }) []).2
      = some "carrier rejected" ∧
    InjectHTTP tracedCtx [] "GET /users" "HTTP" = Except.error Panic.nilDereference ∧
    InjectRedis sampleEnv tracedCtx [] "get" "k"
      = Except.ok
          { span := some
              { operationName := "get",
                parent := SpanContext.jaeger { traceID := 7, spanID := 8 },
                context := SpanContext.jaeger { traceID := 7, spanID := 9 },
                tags := [("component", "Redis"), ("args", "k"), ("span.kind", "client"),
                         ("Trace-Id", "0000000000000007"), ("Span-Id", "0000000000000008"),
                         ("Log-Id", "log-1")],
                logs := [("inject-current-error", "carrier rejected")] },
            err := some "carrier rejected",
            header := [],
            events := [Event.startSpan "get",
                       Event.inject (SpanContext.jaeger { traceID := 7, spanID := 9 })] } := by
  refine ⟨rfl, rfl, rfl, rfl, ?_⟩
  rfl

/-- C6.  For every request context in which the tracer entry or the parent span-context entry
is absent, or is stored with a value that is not of tracer or span-context type, `InjectHTTP`
and `InjectRedis` return without a panic: no span is started and `Inject` is not called (no
call reaches a tracer), the header carrier is the one passed in, and the results are a nil span
and a nil error. -/
theorem C6_absent_parent_no_injection (env : Env) (c : GinContext) (header : Header)
    (operationName operationType args : String)
    (h : ¬ TracerPresent c ∨ ¬ ParentPresent c) :
    InjectHTTP c header operationName operationType
      = Except.ok { span := none, err := none, header := header, events := [] } ∧
    InjectRedis env c header operationName args
      = Except.ok { span := none, err := none, header := header, events := [] } := by
  have hg := getInjectParent_absent c h
  rcases hp : getInjectParent c with ⟨a, b, ok⟩
  rw [hp] at hg
  simp only at hg
  subst hg
  constructor
  · simp [InjectHTTP, hp, pure, Except.pure]
  · simp [InjectRedis, hp, pure, Except.pure]

/-- C6 at a request context without any tracing entry, and a carrier holding one header. -/
theorem C6_absent_parent_no_injection_witness :
    (¬ TracerPresent untracedCtx ∨ ¬ ParentPresent untracedCtx) ∧
    InjectHTTP untracedCtx [("Accept", ["text/html"])] "GET /users" "HTTP"
      = Except.ok { span := none, err := none, header := [("Accept", ["text/html"])],
                    events := [] } ∧
    InjectRedis sampleEnv untracedCtx [("Accept", ["text/html"])] "GET /users" "k"
      = Except.ok { span := none, err := none, header := [("Accept", ["text/html"])],
                    events := [] } :=
  have hu : ¬ TracerPresent untracedCtx ∨ ¬ ParentPresent untracedCtx :=
    Or.inl (fun ⟨_, ht⟩ => Bool.noConfusion (congrArg Prod.snd ht))
  ⟨hu, C6_absent_parent_no_injection sampleEnv untracedCtx [("Accept", ["text/html"])]
    "GET /users" "HTTP" "k" hu⟩

end GinApi
